import Mathlib

/-!
Verification of the `leap_tracker` ROS node (files `leap_tracker.py` and `exc.py`).

The development shallowly embeds the parts of the node that the verified
properties talk about: the cyclic self-test pose generator `test_pose`, the
`JointState` builder `build_joint_state_msg`, the `PoseStamped` builder
`build_pose_stamped_msg`, and the fixed-rate publish loop `start_transmit`
together with the `QuitMessageException` control flow that unwinds to `main`.

Machine floats are modelled by real numbers; Python's `%` on floats with a
positive modulus is modelled by `pymod` below, which agrees with the
mathematical remainder `a - m * ⌊a / m⌋` that Python's `float.__mod__`
computes for a positive modulus.  The external quaternion conversion
`tf.transformations.quaternion_from_euler` is third-party library code, so the
pose builder is parametrised by an arbitrary conversion function `qfe`.
-/

namespace LeapTracker

noncomputable section

/-- Python's `a % m` on floats for a positive modulus `m`:
`a - m * floor (a / m)`, which always lies in `[0, m)`. -/
def pymod (a m : ℝ) : ℝ := a - m * (⌊a / m⌋ : ℝ)

/-- Constant `NODE_NAME` from `leap_tracker.py`. -/
def NODE_NAME : String := "leap_tracker"

/-- Constant `FRAME_ID` from `leap_tracker.py`. -/
def FRAME_ID : String := NODE_NAME

/-- Constant `FINGER_NAMES` from `leap_tracker.py`. -/
def FINGER_NAMES : List String := ["thumb", "index", "middle", "ring", "pinky"]

/-- Constant `FINGER_BONES` from `leap_tracker.py`. -/
def FINGER_BONES : List String := ["meta", "prox", "mid", "dist"]

/-- Constant `POS_ATTRIBUTES` from `leap_tracker.py`. -/
def POS_ATTRIBUTES : List String := ["x", "y", "z"]

/-- Constant `ORI_ATTRIBUTES` from `leap_tracker.py`. -/
def ORI_ATTRIBUTES : List String := ["roll", "pitch", "yaw"]

/-- A LEAP SDK vector, with the positional and Euler-angle attributes the
node reads (`x`, `y`, `z`, `roll`, `pitch`, `yaw`). -/
structure LeapVector where
  x : ℝ
  y : ℝ
  z : ℝ
  roll : ℝ
  pitch : ℝ
  yaw : ℝ

/-- Python's `getattr(vector, attr)` for the attribute names the node uses. -/
def LeapVector.attr (v : LeapVector) (a : String) : ℝ :=
  if a = "x" then v.x
  else if a = "y" then v.y
  else if a = "z" then v.z
  else if a = "roll" then v.roll
  else if a = "pitch" then v.pitch
  else if a = "yaw" then v.yaw
  else 0

/-- A LEAP SDK hand: the three vectors the node reads. -/
structure Hand where
  palm_normal : LeapVector
  direction : LeapVector
  palm_position : LeapVector

/-- A LEAP SDK bone: the node only reads its direction vector. -/
structure Bone where
  direction : LeapVector

/-- A LEAP SDK finger: `finger.bone(j)` indexed by bone number. -/
structure Finger where
  bone : ℕ → Bone

/-- The mutable state of `LeapServer` that the verified methods touch:
the test-time variable `self.t`, the last tracked hand `self.hand`, the
finger dictionary `self.fingers`, and the cached list `self.joint_names`. -/
structure LeapServer where
  t : ℝ
  hand : Hand
  fingers : String → Finger
  joint_names : List String

/-- The `sensor_msgs/JointState` fields the node populates. -/
structure JointState where
  name : List String
  position : List ℝ

/-- A `geometry_msgs/Point`. -/
structure Point where
  x : ℝ
  y : ℝ
  z : ℝ

/-- A `geometry_msgs/Quaternion` in `(x, y, z, w)` component form. -/
structure Quat where
  x : ℝ
  y : ℝ
  z : ℝ
  w : ℝ

/-- A `geometry_msgs/Pose`. -/
structure Pose where
  position : Point
  orientation : Quat

/-- The `geometry_msgs/PoseStamped` fields the node populates. -/
structure PoseStamped where
  frame_id : String
  pose : Pose

/-- `LeapServer.test_pose` (leap_tracker.py lines 330-366): reads `self.t`,
returns `((x, y, z), (pitch, yaw, roll))` and the new value of `self.t`.
The six `2π`-wide phases are selected by `t % (math.pi * 12)`; the final
`else` resets the counter to `0.0`. -/
def test_pose (t : ℝ) : ((ℝ × ℝ × ℝ) × (ℝ × ℝ × ℝ)) × ℝ :=
  let delta := Real.sin t * 1000
  let alpha := Real.cos t * Real.pi * 2
  if pymod t (Real.pi * 12) < Real.pi * 2 then
    (((delta, 0, 0), (0, 0, 0)), t)
  else if pymod t (Real.pi * 12) < Real.pi * 4 then
    (((0, delta, 0), (0, 0, 0)), t)
  else if pymod t (Real.pi * 12) < Real.pi * 6 then
    (((0, 0, delta), (0, 0, 0)), t)
  else if pymod t (Real.pi * 12) < Real.pi * 8 then
    (((0, 0, 0), (alpha, 0, 0)), t)
  else if pymod t (Real.pi * 12) < Real.pi * 10 then
    (((0, 0, 0), (0, alpha, 0)), t)
  else if pymod t (Real.pi * 12) < Real.pi * 12 then
    (((0, 0, 0), (0, 0, alpha)), t)
  else
    (((0, 0, 0), (0, 0, 0)), 0)

/-- The joint-name list computed on the first `build_joint_state_msg` call
(leap_tracker.py lines 230-235): `hand.<ori>` for each orientation attribute,
then `<finger>.<bone>.<ori>` over the three nested comprehensions. -/
def computedJointNames : List String :=
  (ORI_ATTRIBUTES.map fun attr => "hand" ++ "." ++ attr) ++
    (FINGER_NAMES.flatMap fun finger =>
      FINGER_BONES.flatMap fun bone =>
        ORI_ATTRIBUTES.map fun ori => finger ++ "." ++ bone ++ "." ++ ori)

/-- `LeapServer.build_joint_state_msg` (leap_tracker.py lines 218-276).
Returns the built `JointState` message and the updated server state.
`js_msg.name` starts empty and is appended to; `js_msg.position` starts as
`[0.0] * len(self.joint_names)` and is written through the running index
`pos`.  The hand loop uses the palm normal for `roll` and the hand direction
otherwise; the finger loops walk `FINGER_NAMES`, `FINGER_BONES` (with the
bone index) and `ORI_ATTRIBUTES`. -/
def build_joint_state_msg (s : LeapServer) : JointState × LeapServer :=
  let joint_names := if s.joint_names = [] then computedJointNames else s.joint_names
  let init : List String × List ℝ × ℕ := ([], List.replicate joint_names.length 0, 0)
  let afterHand :=
    ORI_ATTRIBUTES.foldl
      (fun acc attr =>
        let vector := if attr = "roll" then s.hand.palm_normal else s.hand.direction
        (acc.1 ++ ["hand." ++ attr], acc.2.1.set acc.2.2 (vector.attr attr), acc.2.2 + 1))
      init
  let afterFingers :=
    FINGER_NAMES.foldl
      (fun acc finger_name =>
        let finger := s.fingers finger_name
        FINGER_BONES.enum.foldl
          (fun acc2 jb =>
            let bone := finger.bone jb.1
            ORI_ATTRIBUTES.foldl
              (fun acc3 attr =>
                let joint_name := finger_name ++ "." ++ jb.2 ++ "." ++ attr
                let joint_value := bone.direction.attr attr
                (acc3.1 ++ [joint_name], acc3.2.1.set acc3.2.2 joint_value, acc3.2.2 + 1))
              acc2)
          acc)
      afterHand
  (⟨afterFingers.1, afterFingers.2.1⟩, { s with joint_names := joint_names })

/-- The server state after a `build_joint_state_msg` call. -/
def buildState (s : LeapServer) : LeapServer := (build_joint_state_msg s).2

/-- The hand rows of the built position array, in loop order:
`hand.roll` from the palm normal, `hand.pitch` and `hand.yaw` from the hand
direction. -/
def handJointValues (s : LeapServer) : List ℝ :=
  [s.hand.palm_normal.roll, s.hand.direction.pitch, s.hand.direction.yaw]

/-- The finger rows of the built position array, in loop order. -/
def fingerJointValues (s : LeapServer) : List ℝ :=
  FINGER_NAMES.flatMap fun finger_name =>
    FINGER_BONES.enum.flatMap fun jb =>
      ORI_ATTRIBUTES.map fun attr =>
        ((s.fingers finger_name).bone jb.1).direction.attr attr

/-- The full position array built by `build_joint_state_msg`. -/
def jointValues (s : LeapServer) : List ℝ := handJointValues s ++ fingerJointValues s

/-- Packs the 4-tuple returned by `quaternion_from_euler` into the message's
orientation components `x, y, z, w` (indices 0..3). -/
def quatFromTuple (q : ℝ × ℝ × ℝ × ℝ) : Quat := ⟨q.1, q.2.1, q.2.2.1, q.2.2.2⟩

/-- `LeapServer.build_pose_stamped_msg` (leap_tracker.py lines 278-328),
parametrised by the external conversion `quaternion_from_euler` (`qfe`).
A fresh `PoseStamped` has zero position and orientation; the orientation is
first set from the hand data (`roll`, `pitch` from the palm normal, `yaw`
from the hand direction), then, in the `test=True` branch, position and
orientation are overwritten from `test_pose` — whose call also updates
`self.t`. -/
def build_pose_stamped_msg (qfe : ℝ → ℝ → ℝ → ℝ × ℝ × ℝ × ℝ)
    (s : LeapServer) (test : Bool) : PoseStamped × LeapServer :=
  let direction := s.hand.direction
  let position := s.hand.palm_position
  let normal := s.hand.palm_normal
  let roll := normal.roll
  let pitch := normal.pitch
  let yaw := direction.yaw
  let quaternion := qfe roll pitch yaw
  let ps0 : PoseStamped := ⟨FRAME_ID, ⟨⟨0, 0, 0⟩, quatFromTuple quaternion⟩⟩
  if test = false then
    ({ ps0 with
        pose.position :=
          ⟨position.attr "x", position.attr "y", position.attr "z"⟩ }, s)
  else
    let r := test_pose s.t
    let x := r.1.1.1
    let y := r.1.1.2.1
    let z := r.1.1.2.2
    let pitch2 := r.1.2.1
    let yaw2 := r.1.2.2.1
    let roll2 := r.1.2.2.2
    let quaternion2 := qfe roll2 pitch2 yaw2
    ({ ps0 with
        pose.position := ⟨x, y, z⟩,
        pose.orientation := quatFromTuple quaternion2 },
      { s with t := r.2 })

/-- The environment of one iteration of the publish loop: whether
`rospy.is_shutdown()` returns true at the loop test, and whether a
`KeyboardInterrupt` is delivered during this iteration's `r.sleep()`. -/
structure IterEnv where
  shutdown : Bool
  interrupt : Bool

/-- The only exception `start_transmit` lets escape: `QuitMessageException`
from `exc.py`. -/
inductive TrackerExc where
  | quitMessage (msg : String)

/-- The three publish channels of the node. -/
inductive Channel where
  | js
  | ps
  | ts
deriving DecidableEq

/-- Result of running the publish loop against a finite list of iteration
environments: either the input is exhausted with the loop still running, or
the loop has exited and `start_transmit` raised an exception. -/
inductive TransmitOutcome where
  | pending (s : LeapServer) (pubs : List Channel)
  | raised (e : TrackerExc) (s : LeapServer) (pubs : List Channel)

/-- The publish trace of an outcome. -/
def outcomePubs : TransmitOutcome → List Channel
  | .pending _ p => p
  | .raised _ _ p => p

/-- The body of `LeapServer.start_transmit` (leap_tracker.py lines 188-216).
Each iteration first tests `rospy.is_shutdown()`; the body builds and
publishes the `JointState` and `PoseStamped` messages (the `TwistStamped`
publish is commented out), sleeps, and increments `self.t` by `0.01`.
A `KeyboardInterrupt` delivered during `r.sleep()` sets `quitting`, which
exits the loop; leaving the loop always raises `QuitMessageException`. -/
def transmitLoop (qfe : ℝ → ℝ → ℝ → ℝ × ℝ × ℝ × ℝ) :
    List IterEnv → LeapServer → List Channel → TransmitOutcome
  | [], s, pubs => .pending s pubs
  | env :: rest, s, pubs =>
    if env.shutdown then
      .raised (.quitMessage "Quit message received from client") s pubs
    else
      let s1 := (build_joint_state_msg s).2
      let s2 := (build_pose_stamped_msg qfe s1 true).2
      let pubs2 := pubs ++ [Channel.js, Channel.ps]
      if env.interrupt then
        .raised (.quitMessage "Quit message received from client") s2 pubs2
      else
        transmitLoop qfe rest { s2 with t := s2.t + 0.01 } pubs2

/-- `LeapServer.start_transmit`, started with an empty publish trace. -/
def start_transmit (qfe : ℝ → ℝ → ℝ → ℝ × ℝ × ℝ × ℝ)
    (envs : List IterEnv) (s : LeapServer) : TransmitOutcome :=
  transmitLoop qfe envs s []

/-- The exception handling in `main` (leap_tracker.py lines 378-384): a
`QuitMessageException` is caught and surfaced as a single log message. -/
def mainHandle : TransmitOutcome → List String
  | .pending _ _ => []
  | .raised (.quitMessage msg) _ _ => [msg]

/-- The values `self.joint_names` takes in any reachable server state:
`on_init` sets it to `[]` and `build_joint_state_msg` is the only writer. -/
def goodJointNames (s : LeapServer) : Prop :=
  s.joint_names = [] ∨ s.joint_names = computedJointNames

/-- A concrete hand used by the witnesses. -/
def sampleHand : Hand :=
  { palm_normal := ⟨1, 2, 3, 4, 5, 6⟩
    direction := ⟨7, 8, 9, 10, 11, 12⟩
    palm_position := ⟨13, 14, 15, 16, 17, 18⟩ }

/-- A second concrete hand, different from `sampleHand`. -/
def otherHand : Hand :=
  { palm_normal := ⟨21, 22, 23, 24, 25, 26⟩
    direction := ⟨27, 28, 29, 30, 31, 32⟩
    palm_position := ⟨33, 34, 35, 36, 37, 38⟩ }

/-- A concrete server state used by the witnesses. -/
def sampleServer : LeapServer :=
  { t := 0
    hand := sampleHand
    fingers := fun _ => { bone := fun _ => { direction := ⟨1, 1, 1, 1, 1, 1⟩ } }
    joint_names := [] }

/-- A concrete server state with the same time as `sampleServer` but a
different hand. -/
def otherServer : LeapServer :=
  { t := 0
    hand := otherHand
    fingers := fun _ => { bone := fun _ => { direction := ⟨2, 2, 2, 2, 2, 2⟩ } }
    joint_names := [] }

/-- A concrete trivial quaternion conversion used by the witnesses. -/
def sampleQfe : ℝ → ℝ → ℝ → ℝ × ℝ × ℝ × ℝ := fun a b c => (a, b, c, 1)

/-- A concrete server state whose joint-name cache is already filled. -/
def cachedServer : LeapServer := { sampleServer with joint_names := computedJointNames }

/-- Python's `%` with a positive modulus is nonnegative. -/
theorem pymod_nonneg (a m : ℝ) (hm : 0 < m) : 0 ≤ pymod a m := by
  have h1 : (⌊a / m⌋ : ℝ) ≤ a / m := Int.floor_le _
  have h2 : m * (⌊a / m⌋ : ℝ) ≤ m * (a / m) := mul_le_mul_of_nonneg_left h1 hm.le
  have h3 : m * (a / m) = a := by field_simp
  unfold pymod
  linarith

/-- Python's `%` with a positive modulus is strictly below the modulus. -/
theorem pymod_lt (a m : ℝ) (hm : 0 < m) : pymod a m < m := by
  have h1 : a / m < (⌊a / m⌋ : ℝ) + 1 := Int.lt_floor_add_one _
  have h2 : m * (a / m) < m * ((⌊a / m⌋ : ℝ) + 1) := (mul_lt_mul_left hm).mpr h1
  have h3 : m * (a / m) = a := by field_simp
  have h4 : m * ((⌊a / m⌋ : ℝ) + 1) = m * (⌊a / m⌋ : ℝ) + m := by ring
  unfold pymod
  linarith

/-- C2: the claim says a call with stored time `t ≥ 12π` resets the stored
time to zero.  In the code the reset branch is guarded by
`t % (math.pi * 12) >= math.pi * 12`, which is impossible since a Python
remainder by a positive modulus always lies in `[0, 12π)`: the `else` branch
is dead code and `test_pose` returns the stored time unchanged for every
`t`, so the counter is never reset. -/
theorem test_pose_never_resets_t (t : ℝ) : (test_pose t).2 = t := by
  have h12 : (0 : ℝ) < Real.pi * 12 := by positivity
  have hlt := pymod_lt t (Real.pi * 12) h12
  simp only [test_pose]
  split_ifs with h1 h2 h3 h4 h5 <;> rfl

/-- C1: for every stored time `t ≥ 0`, `test_pose` selects one of six
`2π`-wide phases by which interval `[2kπ, 2(k+1)π)` contains
`t mod 12π`: phase 0 drives `x = 1000·sin t`, phase 1 `y`, phase 2 `z`,
phase 3 `pitch = 2π·cos t`, phase 4 `yaw`, phase 5 `roll`, with the other
five returned components zero. -/
theorem test_pose_phase_cycle (t : ℝ) (ht : 0 ≤ t) :
    (0 ≤ pymod t (Real.pi * 12) ∧ pymod t (Real.pi * 12) < 2 * Real.pi →
      (test_pose t).1 = ((1000 * Real.sin t, 0, 0), (0, 0, 0))) ∧
    (2 * Real.pi ≤ pymod t (Real.pi * 12) ∧ pymod t (Real.pi * 12) < 4 * Real.pi →
      (test_pose t).1 = ((0, 1000 * Real.sin t, 0), (0, 0, 0))) ∧
    (4 * Real.pi ≤ pymod t (Real.pi * 12) ∧ pymod t (Real.pi * 12) < 6 * Real.pi →
      (test_pose t).1 = ((0, 0, 1000 * Real.sin t), (0, 0, 0))) ∧
    (6 * Real.pi ≤ pymod t (Real.pi * 12) ∧ pymod t (Real.pi * 12) < 8 * Real.pi →
      (test_pose t).1 = ((0, 0, 0), (2 * Real.pi * Real.cos t, 0, 0))) ∧
    (8 * Real.pi ≤ pymod t (Real.pi * 12) ∧ pymod t (Real.pi * 12) < 10 * Real.pi →
      (test_pose t).1 = ((0, 0, 0), (0, 2 * Real.pi * Real.cos t, 0))) ∧
    (10 * Real.pi ≤ pymod t (Real.pi * 12) ∧ pymod t (Real.pi * 12) < 12 * Real.pi →
      (test_pose t).1 = ((0, 0, 0), (0, 0, 2 * Real.pi * Real.cos t))) := by
  have hpi := Real.pi_pos
  refine ⟨?_, ?_, ?_, ?_, ?_, ?_⟩ <;> rintro ⟨hlo, hhi⟩ <;>
    simp only [test_pose] <;>
    split_ifs with h1 h2 h3 h4 h5 h6 <;>
      first
        | (exfalso; linarith)
        | (simp [Prod.ext_iff, mul_comm, mul_left_comm, mul_assoc])

/-- Witness for C1 at the concrete stored time `t = 0`: the remainder is `0`,
which lies in the first phase interval, and the returned pair is all zeros
because `sin 0 = 0`. -/
theorem test_pose_phase_cycle_witness :
    (0 : ℝ) ≤ 0 ∧
    (0 ≤ pymod 0 (Real.pi * 12) ∧ pymod 0 (Real.pi * 12) < 2 * Real.pi) ∧
    (test_pose 0).1 = ((0, 0, 0), (0, 0, 0)) := by
  have hm : pymod 0 (Real.pi * 12) = 0 := by simp [pymod]
  have h1 : 0 ≤ pymod 0 (Real.pi * 12) := by rw [hm]
  have h2 : pymod 0 (Real.pi * 12) < 2 * Real.pi := by rw [hm]; positivity
  have h3 := (test_pose_phase_cycle 0 le_rfl).1 ⟨h1, h2⟩
  refine ⟨le_rfl, ⟨h1, h2⟩, ?_⟩
  simpa using h3

/-- The computed joint-name list is nonempty. -/
theorem computedJointNames_ne_nil : computedJointNames ≠ [] := by decide

/-- The name list built by `build_joint_state_msg` is the computed constant
list, in every server state: the appends in the build loops only touch the
constant tables. -/
theorem build_name_eq (s : LeapServer) :
    ((build_joint_state_msg s).1).name = computedJointNames := by
  simp [build_joint_state_msg, computedJointNames, ORI_ATTRIBUTES, FINGER_NAMES,
    FINGER_BONES, List.enum]

/-- In any state whose joint-name cache is reachable (`[]` or the computed
list), `build_joint_state_msg` returns the computed names paired with the
position array `jointValues`, and caches the computed names. -/
theorem build_joint_state_spec (s : LeapServer) (h : goodJointNames s) :
    build_joint_state_msg s =
      (⟨computedJointNames, jointValues s⟩,
        { s with joint_names := computedJointNames }) := by
  rcases h with h | h <;>
    simp [build_joint_state_msg, computedJointNames, jointValues, handJointValues,
      fingerJointValues, ORI_ATTRIBUTES, FINGER_NAMES, FINGER_BONES, List.enum,
      h, LeapVector.attr]

/-- C3: in every reachable server state, the `JointState` message returned
by `build_joint_state_msg` has a name list and a position list of equal
length. -/
theorem joint_state_lengths_eq (s : LeapServer) (h : goodJointNames s) :
    ((build_joint_state_msg s).1).name.length =
      ((build_joint_state_msg s).1).position.length := by
  rw [build_joint_state_spec s h]
  simp [computedJointNames, jointValues, handJointValues, fingerJointValues,
    ORI_ATTRIBUTES, FINGER_NAMES, FINGER_BONES, List.enum]

/-- Witness for C3 at the concrete freshly initialised server state. -/
theorem joint_state_lengths_eq_witness :
    goodJointNames sampleServer ∧
    ((build_joint_state_msg sampleServer).1).name.length =
      ((build_joint_state_msg sampleServer).1).position.length :=
  ⟨Or.inl rfl, joint_state_lengths_eq sampleServer (Or.inl rfl)⟩

/-- C4: every `JointState` message built by `build_joint_state_msg` lists
its joints in the fixed order: the three hand orientation joints
roll, pitch, yaw, then for each finger thumb, index, middle, ring, pinky,
for each bone meta, prox, mid, dist, the angles roll, pitch, yaw. -/
theorem joint_state_name_order (s : LeapServer) :
    ((build_joint_state_msg s).1).name =
      ["hand.roll", "hand.pitch", "hand.yaw"] ++
        (["thumb", "index", "middle", "ring", "pinky"].flatMap fun finger =>
          ["meta", "prox", "mid", "dist"].flatMap fun bone =>
            ["roll", "pitch", "yaw"].map fun ori =>
              finger ++ "." ++ bone ++ "." ++ ori) := by
  rw [build_name_eq]
  simp [computedJointNames, ORI_ATTRIBUTES, FINGER_NAMES, FINGER_BONES]

/-- C9: in every reachable server state, the value published for the
`hand.roll` joint is read from the palm-normal vector, while `hand.pitch`
and `hand.yaw` are read from the hand's direction vector. -/
theorem hand_joint_sources (s : LeapServer) (h : goodJointNames s) :
    ((build_joint_state_msg s).1).name.get? 0 = some "hand.roll" ∧
    ((build_joint_state_msg s).1).position.get? 0 = some s.hand.palm_normal.roll ∧
    ((build_joint_state_msg s).1).name.get? 1 = some "hand.pitch" ∧
    ((build_joint_state_msg s).1).position.get? 1 = some s.hand.direction.pitch ∧
    ((build_joint_state_msg s).1).name.get? 2 = some "hand.yaw" ∧
    ((build_joint_state_msg s).1).position.get? 2 = some s.hand.direction.yaw := by
  rw [build_joint_state_spec s h]
  exact ⟨rfl, rfl, rfl, rfl, rfl, rfl⟩

/-- Witness for C9 at the concrete freshly initialised server state, whose
palm normal has roll `4` and whose direction has pitch `11` and yaw `12`. -/
theorem hand_joint_sources_witness :
    goodJointNames sampleServer ∧
    ((build_joint_state_msg sampleServer).1).position.get? 0 = some 4 ∧
    ((build_joint_state_msg sampleServer).1).position.get? 1 = some 11 ∧
    ((build_joint_state_msg sampleServer).1).position.get? 2 = some 12 := by
  have h := hand_joint_sources sampleServer (Or.inl rfl)
  exact ⟨Or.inl rfl, h.2.1, h.2.2.2.1, h.2.2.2.2.2⟩

/-- The cache after a `build_joint_state_msg` call: filled from empty,
otherwise untouched. -/
theorem buildState_joint_names (s : LeapServer) :
    (buildState s).joint_names =
      if s.joint_names = [] then computedJointNames else s.joint_names := rfl

/-- After any `build_joint_state_msg` call the cache is nonempty. -/
theorem buildState_nonempty (s : LeapServer) : (buildState s).joint_names ≠ [] := by
  rw [buildState_joint_names]
  split_ifs with h'
  · exact computedJointNames_ne_nil
  · exact h'

/-- A `build_joint_state_msg` call on a nonempty cache leaves it unchanged. -/
theorem buildState_stable (s : LeapServer) (h : s.joint_names ≠ []) :
    (buildState s).joint_names = s.joint_names := by
  rw [buildState_joint_names, if_neg h]

/-- The reachable-cache invariant is preserved by `build_joint_state_msg`. -/
theorem goodJointNames_buildState (s : LeapServer) (h : goodJointNames s) :
    goodJointNames (buildState s) := by
  right
  rw [buildState_joint_names]
  split_ifs with h'
  · rfl
  · rcases h with h | h
    · exact absurd h h'
    · exact h

/-- The reachable-cache invariant is preserved by `build_pose_stamped_msg`. -/
theorem goodJointNames_pose (qfe : ℝ → ℝ → ℝ → ℝ × ℝ × ℝ × ℝ)
    (s : LeapServer) (test : Bool) (h : goodJointNames s) :
    goodJointNames ((build_pose_stamped_msg qfe s test).2) := by
  cases test <;> simpa [build_pose_stamped_msg, goodJointNames] using h

/-- C5: the cached joint-name list is computed exactly once —
`build_joint_state_msg` leaves a nonempty cache unchanged, and every call
after the first returns the same cache as the first call. -/
theorem joint_names_computed_once (s : LeapServer) (n : ℕ) :
    (s.joint_names ≠ [] → (buildState s).joint_names = s.joint_names) ∧
    (buildState^[n] (buildState s)).joint_names = (buildState s).joint_names := by
  constructor
  · exact buildState_stable s
  · induction n with
    | zero => rfl
    | succ k ih =>
        have hne : (buildState^[k] (buildState s)).joint_names ≠ [] := by
          rw [ih]; exact buildState_nonempty s
        rw [Function.iterate_succ_apply', buildState_stable _ hne, ih]

/-- Witness for C5 at a concrete server state with a filled cache and two
further calls. -/
theorem joint_names_computed_once_witness :
    cachedServer.joint_names ≠ [] ∧
    (buildState cachedServer).joint_names = cachedServer.joint_names ∧
    (buildState^[2] (buildState cachedServer)).joint_names =
      (buildState cachedServer).joint_names := by
  have h := joint_names_computed_once cachedServer 2
  have hne : cachedServer.joint_names ≠ [] := computedJointNames_ne_nil
  exact ⟨hne, h.1 hne, h.2⟩

/-- C7: with `test=True`, the built `PoseStamped` message's position equals
the position triple returned by `test_pose`, and its orientation equals the
quaternion conversion applied to the `(roll, pitch, yaw)` of the
`(pitch, yaw, roll)` triple returned by `test_pose`. -/
theorem pose_stamped_test_fields (qfe : ℝ → ℝ → ℝ → ℝ × ℝ × ℝ × ℝ)
    (s : LeapServer) :
    ((build_pose_stamped_msg qfe s true).1).pose.position =
      ⟨(test_pose s.t).1.1.1, (test_pose s.t).1.1.2.1, (test_pose s.t).1.1.2.2⟩ ∧
    ((build_pose_stamped_msg qfe s true).1).pose.orientation =
      quatFromTuple
        (qfe (test_pose s.t).1.2.2.2 (test_pose s.t).1.2.1 (test_pose s.t).1.2.2.1) := by
  constructor <;> simp [build_pose_stamped_msg]

/-- C10: with `test=True`, the pose position and orientation of the built
message depend only on the stored time, not on the hand state: two states
with equal stored time yield equal pose fields. -/
theorem pose_test_independent_of_hand (qfe : ℝ → ℝ → ℝ → ℝ × ℝ × ℝ × ℝ)
    (s1 s2 : LeapServer) (h : s1.t = s2.t) :
    ((build_pose_stamped_msg qfe s1 true).1).pose.position =
      ((build_pose_stamped_msg qfe s2 true).1).pose.position ∧
    ((build_pose_stamped_msg qfe s1 true).1).pose.orientation =
      ((build_pose_stamped_msg qfe s2 true).1).pose.orientation := by
  constructor <;> simp [build_pose_stamped_msg, h]

/-- Witness for C10 at two concrete states with equal stored time `0` but
different hands and fingers. -/
theorem pose_test_independent_of_hand_witness :
    sampleServer.t = otherServer.t ∧
    ((build_pose_stamped_msg sampleQfe sampleServer true).1).pose.position =
      ((build_pose_stamped_msg sampleQfe otherServer true).1).pose.position ∧
    ((build_pose_stamped_msg sampleQfe sampleServer true).1).pose.orientation =
      ((build_pose_stamped_msg sampleQfe otherServer true).1).pose.orientation := by
  have h := pose_test_independent_of_hand sampleQfe sampleServer otherServer rfl
  exact ⟨rfl, h.1, h.2⟩

/-- Running the loop through interrupt-free, shutdown-free iterations up to
an iteration whose sleep is interrupted always ends with
`QuitMessageException` raised, after publishing exactly one `JointState` and
one `PoseStamped` per executed iteration. -/
theorem transmitLoop_interrupt (qfe : ℝ → ℝ → ℝ → ℝ × ℝ × ℝ × ℝ)
    (pre : List IterEnv) :
    ∀ (s : LeapServer) (acc : List Channel),
      (∀ e ∈ pre, e.shutdown = false ∧ e.interrupt = false) →
      ∀ (env : IterEnv) (rest : List IterEnv),
        env.shutdown = false → env.interrupt = true →
        ∃ s', transmitLoop qfe (pre ++ env :: rest) s acc =
          .raised (.quitMessage "Quit message received from client") s'
            (acc ++ (List.replicate (pre.length + 1) [Channel.js, Channel.ps]).flatten) := by
  induction pre with
  | nil =>
      intro s acc _ env rest hsd hint
      refine ⟨(build_pose_stamped_msg qfe (build_joint_state_msg s).2 true).2, ?_⟩
      simp [transmitLoop, hsd, hint]
  | cons e pre ih =>
      intro s acc hpre env rest hsd hint
      have he := hpre e (List.mem_cons_self e pre)
      have hrest : ∀ x ∈ pre, x.shutdown = false ∧ x.interrupt = false :=
        fun x hx => hpre x (List.mem_cons_of_mem e hx)
      obtain ⟨s', h'⟩ :=
        ih { (build_pose_stamped_msg qfe (build_joint_state_msg s).2 true).2 with
              t := (build_pose_stamped_msg qfe (build_joint_state_msg s).2 true).2.t + 0.01 }
          (acc ++ [Channel.js, Channel.ps]) hrest env rest hsd hint
      refine ⟨s', ?_⟩
      have hpubs : acc ++ [Channel.js, Channel.ps] ++
            (List.replicate (pre.length + 1) [Channel.js, Channel.ps]).flatten =
          acc ++ (List.replicate (pre.length + 1 + 1) [Channel.js, Channel.ps]).flatten := by
        simp [List.replicate_succ, List.append_assoc]
      rw [hpubs] at h'
      simpa only [List.cons_append, transmitLoop, he.1, he.2, Bool.false_eq_true,
        if_false, List.length_cons] using h'

/-- C6: a keyboard interrupt during the publish loop stops the loop and
makes `start_transmit` raise the sentinel `QuitMessageException`, which
unwinds to `main` where it surfaces exactly one message.  The loop model has
no other failure: the interrupt is the only handled condition. -/
theorem interrupt_raises_quit (qfe : ℝ → ℝ → ℝ → ℝ × ℝ × ℝ × ℝ)
    (s : LeapServer) (pre : List IterEnv) (env : IterEnv) (rest : List IterEnv)
    (hpre : ∀ e ∈ pre, e.shutdown = false ∧ e.interrupt = false)
    (hsd : env.shutdown = false) (hint : env.interrupt = true) :
    (∃ s', start_transmit qfe (pre ++ env :: rest) s =
      .raised (.quitMessage "Quit message received from client") s'
        ((List.replicate (pre.length + 1) [Channel.js, Channel.ps]).flatten)) ∧
    mainHandle (start_transmit qfe (pre ++ env :: rest) s) =
      ["Quit message received from client"] := by
  obtain ⟨s', h'⟩ := transmitLoop_interrupt qfe pre s [] hpre env rest hsd hint
  rw [List.nil_append] at h'
  constructor
  · exact ⟨s', by unfold start_transmit; rw [h']⟩
  · show mainHandle (transmitLoop qfe (pre ++ env :: rest) s []) = _
    rw [h']
    rfl

/-- Witness for C6: a single iteration whose sleep is interrupted, starting
from the concrete initial server state. -/
theorem interrupt_raises_quit_witness :
    (∀ e ∈ ([] : List IterEnv), e.shutdown = false ∧ e.interrupt = false) ∧
    (⟨false, true⟩ : IterEnv).shutdown = false ∧
    (⟨false, true⟩ : IterEnv).interrupt = true ∧
    mainHandle (start_transmit sampleQfe ([] ++ (⟨false, true⟩ : IterEnv) :: []) sampleServer) =
      ["Quit message received from client"] := by
  have h := interrupt_raises_quit sampleQfe sampleServer [] ⟨false, true⟩ []
    (by intro e he; cases he) rfl rfl
  exact ⟨(by intro e he; cases he), rfl, rfl, h.2⟩

/-- Every run of the publish loop publishes `[JointState, PoseStamped]`
pairs, iteration by iteration, on top of the starting trace. -/
theorem transmitLoop_pubs (qfe : ℝ → ℝ → ℝ → ℝ × ℝ × ℝ × ℝ)
    (envs : List IterEnv) :
    ∀ (s : LeapServer) (acc : List Channel),
      ∃ n, outcomePubs (transmitLoop qfe envs s acc) =
        acc ++ (List.replicate n [Channel.js, Channel.ps]).flatten := by
  induction envs with
  | nil => exact fun s acc => ⟨0, by simp [transmitLoop, outcomePubs]⟩
  | cons env rest ih =>
      intro s acc
      by_cases hsd : env.shutdown = true
      · exact ⟨0, by simp [transmitLoop, hsd, outcomePubs]⟩
      · by_cases hint : env.interrupt = true
        · exact ⟨1, by simp [transmitLoop, hsd, hint, outcomePubs]⟩
        · obtain ⟨n, hn⟩ :=
            ih { (build_pose_stamped_msg qfe (build_joint_state_msg s).2 true).2 with
                  t := (build_pose_stamped_msg qfe (build_joint_state_msg s).2 true).2.t + 0.01 }
              (acc ++ [Channel.js, Channel.ps])
          refine ⟨n + 1, ?_⟩
          simp only [transmitLoop, hsd, hint, Bool.false_eq_true, if_false]
          rw [hn]
          simp [List.replicate_succ, List.append_assoc]

/-- C8: on every run of the publish loop, each executed iteration publishes
exactly a `JointState` message and a `PoseStamped` message, and nothing is
ever published on the twist channel. -/
theorem publish_channels_js_ps_only (qfe : ℝ → ℝ → ℝ → ℝ × ℝ × ℝ × ℝ)
    (envs : List IterEnv) (s : LeapServer) :
    Channel.ts ∉ outcomePubs (start_transmit qfe envs s) ∧
    ∃ n, outcomePubs (start_transmit qfe envs s) =
      (List.replicate n [Channel.js, Channel.ps]).flatten := by
  obtain ⟨n, hn⟩ := transmitLoop_pubs qfe envs s []
  rw [List.nil_append] at hn
  constructor
  · unfold start_transmit
    rw [hn]
    intro hmem
    simp only [List.mem_flatten] at hmem
    obtain ⟨l, hl, hml⟩ := hmem
    rw [List.eq_of_mem_replicate hl] at hml
    simp at hml
  · exact ⟨n, by unfold start_transmit; rw [hn]⟩

end

end LeapTracker
